/-
Verification of the blazer B2 client library against its specification.

The development shallowly embeds the parts of the code the claims are
about:

* `base/base.go`: the error classifier `Action` and the delay hint
  `Backoff` over structured RPC errors (`b2err`), modelled by `Action`
  and `Backoff` over `GoError`.  Go `int` fields become `Int`;
  `time.Duration` values are integer nanoseconds.
* `b2/backend.go`: the reauthentication wrapper `withReauth` and the
  backoff schedule `jitter`/`getBackoff`/`withBackoff`.  The schedule is
  modelled over `ℚ` (exact arithmetic standing for the float64
  computation; the random source `rand.Float64()` is an explicit input
  `u ∈ [0,1)`).
* `b2/writer.go` and `Object.NewWriter` from `b2/b2.go`: the Writer
  state machine (`Write`, `sendChunk`, `simpleWriteFile`, `Close`,
  `setErr`/`getErr`).  Bytes are `Nat`s, buffers are lists, and the
  RPCs issued are recorded in an event trace.  The SHA-1 digest
  (`crypto/sha1`, an external pure function of the absorbed bytes) is a
  parameter `hash : List Nat → String`; the hasher state `w.chsh` is
  modelled by the list of bytes absorbed since the last reset, so the
  digest the code would produce is `hash` of that list.
-/
import Mathlib

namespace Blazer

/-! ### base/base.go: error taxonomy and classifier -/

/-- `base.ErrAction`: the four recommended courses of action. -/
inductive ErrAction where
  | reAuthenticate
  | attemptNewUpload
  | retry
  | punt
deriving DecidableEq, Repr

/-- `base.b2err`: the structured RPC error
`{msg string; method string; retry int; code int}`. -/
structure B2Err where
  msg : String
  method : String
  retry : Int
  code : Int
deriving DecidableEq, Repr

/-- A Go `error` value as seen by `base.Action`: either the structured
`b2err` or any other error (for which the type assertion
`err.(b2err)` fails). -/
inductive GoError where
  | b2 (e : B2Err)
  | generic (msg : String)
deriving DecidableEq, Repr

/-- The method test `e.method == "b2_upload_file" || e.method == "b2_upload_part"`
repeated twice inside `base.Action`. -/
def isUploadMethod (m : String) : Bool :=
  m == "b2_upload_file" || m == "b2_upload_part"

/-- `base.Action` (base/base.go): checks an error and returns a
recommended course of action.  The branch structure mirrors the Go
source: the type assertion, the `e.retry > 0` test, the 5xx-on-upload
test, then the `switch` on `e.code`. -/
def Action (err : GoError) : ErrAction :=
  match err with
  | .generic _ => ErrAction.punt
  | .b2 e =>
    if 0 < e.retry then ErrAction.retry
    else if 500 ≤ e.code ∧ e.code < 600 ∧ isUploadMethod e.method then
      ErrAction.attemptNewUpload
    else if e.code = 401 then
      if e.method == "b2_authorize_account" then ErrAction.punt
      else if isUploadMethod e.method then ErrAction.attemptNewUpload
      else ErrAction.reAuthenticate
    else if e.code = 429 ∨ e.code = 500 ∨ e.code = 503 then ErrAction.retry
    else ErrAction.punt

/-- `base.Backoff` (base/base.go): the server-supplied delay,
`time.Duration(e.retry) * time.Second`, in nanoseconds; `0` when the
error is not a `b2err`. -/
def Backoff (err : GoError) : Int :=
  match err with
  | .generic _ => 0
  | .b2 e => e.retry * 1000000000

/-- `b2Root.reauth` (b2/baseline.go): `base.Action(err) == base.ReAuthenticate`.
A `nil` error (here `none`) fails the type assertion inside `Action`
and classifies as `Punt`, hence `false`. -/
def b2RootReauth (err : Option GoError) : Bool :=
  match err with
  | none => false
  | some e => Action e == ErrAction.reAuthenticate

/-! ### b2/backend.go: withReauth -/

/-- `withReauth` (b2/backend.go): run `f`; if the error classifies as
`ReAuthenticate`, reauthorize the account and, when that succeeds, run
`f` exactly once more, returning the second result unconditionally.

`f` is attempt-indexed (`f n` is the outcome of the `n`-th call, `none`
meaning success) and `reauthorizeResult` is the outcome of
`ri.reauthorizeAccount` (which in Go re-runs `authorizeAccount` under
`withBackoff`; at this level it is one invocation).  Besides the Go
return value the model returns the number of calls to `f` and the
number of `reauthorizeAccount` invocations. -/
def withReauth (reauthorizeResult : Option GoError) (f : Nat → Option GoError) :
    Option GoError × Nat × Nat :=
  let err := f 0
  if b2RootReauth err then
    match reauthorizeResult with
    | some re => (some re, 1, 1)
    | none => (f 1, 2, 1)
  else (err, 1, 0)

/-- A 401 on a non-upload, non-authorize method. -/
def err401list : B2Err :=
  { msg := "expired", method := "b2_list_buckets", retry := 0, code := 401 }

/-- A 408 with no Retry-After header. -/
def err408info : B2Err :=
  { msg := "timeout", method := "b2_get_file_info", retry := 0, code := 408 }

/-- A 429 on an upload method with no Retry-After header: none of the
earlier classifier rules applies to it (429 is not 5xx), so the
code-set rule decides. -/
def err429upload : B2Err :=
  { msg := "rate limited", method := "b2_upload_file", retry := 0, code := 429 }

/-- A 503 upload error carrying `Retry-After: 7`. -/
def err503upload : B2Err :=
  { msg := "busy", method := "b2_upload_file", retry := 7, code := 503 }

/-! ### b2/backend.go: jitter and the local backoff schedule

`time.Duration` values are nanoseconds; the model computes in exact
rationals (standing for the Go float64 arithmetic) and leaves the
final truncation to integer nanoseconds out.  The random draw
`rand.Float64()` is an explicit input `u ∈ [0,1)`. -/

/-- One second in nanoseconds (`time.Second`). -/
def secondNs : ℚ := 1000000000

/-- `jitter` (b2/backend.go):
`f := float64(d); f /= 50; f += f * (rand.Float64() - 0.5)`. -/
def jitterQ (d u : ℚ) : ℚ :=
  d / 50 + d / 50 * (u - 1 / 2)

/-- `getBackoff` (b2/backend.go): above 15 s keep the delay and add its
jitter; otherwise double it and add the jitter of the doubled value. -/
def getBackoffQ (d u : ℚ) : ℚ :=
  if 15 * secondNs < d then d + jitterQ d u else 2 * d + jitterQ (2 * d) u

/-- The undithered base `getBackoff` steps to: the doubled delay while
the previous delay is at most 15 s, the held delay above that. -/
def stepQ (d : ℚ) : ℚ :=
  if 15 * secondNs < d then d else 2 * d

/-- The local delay sequence of `withBackoff` when `ri.backoff` never
supplies a server delay: `backoff := 500 * time.Millisecond`, then
`backoff = getBackoff(backoff)` before each wait; `u k` is the random
draw used by the `k`-th step. -/
def backoffSeq (u : Nat → ℚ) : Nat → ℚ
  | 0 => 500000000
  | k + 1 => getBackoffQ (backoffSeq u k) (u k)

/-! ### b2/writer.go: the Writer state machine

Bytes are `Nat`s.  The SHA-1 digest is an arbitrary pure function
`hash : List Nat → String`; `w.chsh` (the running `sha1.New()` hasher)
is modelled by the list of bytes absorbed since its last reset, so
`fmt.Sprintf("%x", w.chsh.Sum(nil))` becomes `hash s.chsh`.

The upload worker goroutines (`Writer.thread`) consume chunks from the
`w.ready` channel and upload each exactly once via `uploadPart` (plus
one `getUploadPartURL` per worker, not recorded here).  The model
records each value sent on `w.ready` as a `handoff` event; RPC
outcomes are supplied by an environment `Env`. -/

namespace Writer

/-- `chunk` (b2/writer.go): the value handed to upload workers.
`attempt` exists in the Go struct but is never written in this file,
so it stays at its zero value. -/
structure Chunk where
  id : Nat
  attempt : Nat
  size : Nat
  sha1 : String
  buf : List Nat
deriving DecidableEq, Repr

/-- The RPCs the Writer issues, in order.  A `handoff` is a send on
`w.ready`; in the happy path each handed-off chunk is uploaded exactly
once by a worker via `b2_upload_part`. -/
inductive Event where
  | startLargeFile
  | handoff (c : Chunk)
  | finishLargeFile
  | getUploadURL
  | uploadFile (data : List Nat) (sha : String)
deriving DecidableEq, Repr

/-- The `Writer` struct fields the claims depend on.  `csize` is the
chunk size field (`0` means the `1e8` default is installed on first
`Write`); `started` is the `once` latch guarding `startLargeFile`;
`doneOnce` is the `done` latch guarding `Close`'s body; `err` is the
first-error latch behind `emux`; `events` is the trace of issued
RPCs. -/
structure WriterState where
  csize : Nat
  cbuf : List Nat
  cidx : Nat
  chsh : List Nat
  started : Bool
  doneOnce : Bool
  err : Option String
  events : List Event
deriving DecidableEq, Repr

/-- RPC outcomes supplied to a run: `none` is success.  `getUploadURL`
and `uploadFile` are indexed by how often they have been called, since
`simpleWriteFile`'s `redo` loop can call them repeatedly.  `reupload`
is the `w.o.b.r.reupload` classifier (its definition is not part of
this snapshot; only the retry loops consult it).  `redoFuel` bounds
the `redo` loop, which Go leaves unbounded: runs taking more than
`redoFuel` reupload-retries are cut off with the pending error.  Every
claim below uses environments whose first attempt is decisive, where
the bound is irrelevant. -/
structure Env where
  startLargeFile : Option String
  finishLargeFile : Option String
  getUploadURL : Nat → Option String
  uploadFile : Nat → Option String
  consumed : Nat → Nat
  reupload : String → Bool
  redoFuel : Nat

/-- The all-RPCs-succeed environment. -/
def happyEnv : Env :=
  { startLargeFile := none
    finishLargeFile := none
    getUploadURL := fun _ => none
    uploadFile := fun _ => none
    consumed := fun _ => 0
    reupload := fun _ => false
    redoFuel := 1 }

/-- `Writer.setErr`: records `err` only when no error is latched yet. -/
def setErr (s : WriterState) (e : String) : WriterState :=
  match s.err with
  | none => { s with err := some e }
  | some _ => s

/-- `Writer.getErr`: reads the first-error latch. -/
def getErr (s : WriterState) : Option String :=
  s.err

/-- Append one issued RPC to the trace. -/
def appendEv (s : WriterState) (ev : Event) : WriterState :=
  { s with events := s.events ++ [ev] }

/-- The effective chunk size: `Write` installs `1e8` when the field is
zero. -/
def csz (s : WriterState) : Nat :=
  if s.csize = 0 then 100000000 else s.csize

/-- `if w.csize == 0 { w.csize = 1e8 }` from `Writer.Write`. -/
def setCsize (s : WriterState) : WriterState :=
  { s with csize := csz s }

/-- `w.w.Write(p)`: `w.w` is `io.MultiWriter(w.chsh, w.cbuf)`
(installed by `Object.NewWriter` and re-installed by `sendChunk`), so
the hasher and the chunk buffer absorb exactly the same bytes.
Writes to the in-memory `bytes.Buffer` and `hash.Hash` always return a
nil error, so the corresponding error branch of `Writer.Write` is dead
code and has no counterpart here. -/
def wAppend (s : WriterState) (p : List Nat) : WriterState :=
  { s with chsh := s.chsh ++ p, cbuf := s.cbuf ++ p }

/-- The chunk literal built by `Writer.sendChunk`:
`chunk{id: w.cidx + 1, size: w.cbuf.Len(), sha1: hex(w.chsh.Sum(nil)), buf: w.cbuf}`. -/
def cutChunk (hash : List Nat → String) (s : WriterState) : Chunk :=
  { id := s.cidx + 1, attempt := 0, size := s.cbuf.length,
    sha1 := hash s.chsh, buf := s.cbuf }

/-- The tail of `Writer.sendChunk`: send the chunk on `w.ready`,
increment `cidx`, and reset the hasher, the buffer and the MultiWriter
together. -/
def handOff (hash : List Nat → String) (s : WriterState) : WriterState :=
  { s with
    events := s.events ++ [Event.handoff (cutChunk hash s)]
    cidx := s.cidx + 1
    chsh := []
    cbuf := [] }

/-- `Writer.sendChunk`: on the first call the `once` latch fires,
issuing `startLargeFile` and spawning the upload workers (their
per-worker `getUploadPartURL` calls are not recorded); the latch is
consumed even when `startLargeFile` fails.  Then the current chunk is
handed off. -/
def sendChunk (env : Env) (hash : List Nat → String) (s : WriterState) :
    WriterState × Option String :=
  if s.started then (handOff hash s, none)
  else
    match env.startLargeFile with
    | some e => (appendEv { s with started := true } Event.startLargeFile, some e)
    | none => (handOff hash (appendEv { s with started := true } Event.startLargeFile), none)

/-- The `redo` loop of `Writer.simpleWriteFile`: one `b2_upload_file`
attempt per iteration.  Each attempt passes `w.cbuf` itself as the
request body and re-evaluates `w.cbuf.Len()`, but the digest `sha` was
computed once before the loop; the `bytes.Buffer` is consumed as the
transport reads it and is never rewound, so a failed attempt leaves
only the unread remainder for the retry (contrast `Writer.thread`,
which re-wraps `chunk.buf.Bytes()` and seeks to 0 before its redo).
On a reupload-class error a fresh upload URL is fetched (returning its
error if that fails) and the upload repeats.  `attempt`/`guu` index
into the environment's outcome streams; `fuel` bounds the otherwise
unbounded Go loop. -/
def uploadFileLoop (env : Env) (sha : String) (s : WriterState)
    (attempt guu fuel : Nat) : WriterState × Option String :=
  let s1 := appendEv s (Event.uploadFile s.cbuf sha)
  match env.uploadFile attempt with
  | none => ({ s1 with cbuf := [] }, none)
  | some e =>
    let s2 := { s1 with cbuf := s1.cbuf.drop (env.consumed attempt) }
    if env.reupload e then
      match fuel with
      | 0 => (s2, some e)
      | fuel2 + 1 =>
        let s3 := appendEv s2 Event.getUploadURL
        match env.getUploadURL guu with
        | some e2 => (s3, some e2)
        | none => uploadFileLoop env sha s3 (attempt + 1) (guu + 1) fuel2
    else (s2, some e)

/-- `Writer.simpleWriteFile`: acquire an upload URL, compute
`sha1 := hex(w.chsh.Sum(nil))`, and upload `w.cbuf` (retrying per the
`redo` loop).  The content-type defaulting and the returned file
handle are not needed by any claim and are elided. -/
def simpleWriteFile (env : Env) (hash : List Nat → String) (s : WriterState) :
    WriterState × Option String :=
  match env.getUploadURL 0 with
  | some e => (appendEv s Event.getUploadURL, some e)
  | none => uploadFileLoop env (hash s.chsh) (appendEv s Event.getUploadURL) 0 1 env.redoFuel

/-- `close(w.ready); w.wg.Wait(); w.file.finishLargeFile(w.ctx)` from
`Writer.Close` (the returned file handle is elided). -/
def finishLargeFileCall (env : Env) (s : WriterState) : WriterState × Option String :=
  (appendEv s Event.finishLargeFile, env.finishLargeFile)

/-- `Writer.Write`.  Mirrors the Go control flow: consult the error
latch, install the default chunk size, and either buffer `p` whole
(when it fits strictly below the chunk size) or fill the buffer to
exactly `csize` bytes, hand the chunk off, and recurse on the rest.
The returned `Nat` is the Go byte count `i + k`. -/
def write (env : Env) (hash : List Nat → String) (s : WriterState) (p : List Nat) :
    WriterState × Nat × Option String :=
  match getErr s with
  | some e => (s, 0, some e)
  | none =>
    if p.length < csz s - s.cbuf.length then
      (wAppend (setCsize s) p, p.length, none)
    else
      match hsc : sendChunk env hash (wAppend (setCsize s) (p.take (csz s - s.cbuf.length))) with
      | (s2, some e) => (setErr s2 e, csz s - s.cbuf.length, some e)
      | (s2, none) =>
        match write env hash s2 (p.drop (csz s - s.cbuf.length)) with
        | (s3, k, some e) => (setErr s3 e, (csz s - s.cbuf.length) + k, some e)
        | (s3, k, none) => (s3, (csz s - s.cbuf.length) + k, none)
termination_by 2 * p.length + (if csz s ≤ s.cbuf.length then 1 else 0)
decreasing_by
  have hc : s2.cbuf = [] ∧ s2.csize = csz s := by
    have h1 : (wAppend (setCsize s) (p.take (csz s - s.cbuf.length))).csize = csz s := rfl
    revert hsc
    unfold sendChunk
    split
    · intro hsc
      cases hsc
      exact ⟨rfl, h1⟩
    · split
      · intro hsc; cases hsc
      · intro hsc
        cases hsc
        exact ⟨rfl, h1⟩
  have hcz : 1 ≤ csz s := by unfold csz; split <;> omega
  have hcz2 : 1 ≤ csz s2 := by unfold csz; split <;> omega
  simp only [List.length_drop, hc.1, List.length_nil]
  rcases Nat.lt_or_ge s.cbuf.length (csz s) with hlt | hge
  · have : 1 ≤ csz s - s.cbuf.length := by omega
    split <;> (try split) <;> omega
  · split <;> (try split) <;> omega

/-- `Writer.Close`: the `done` latch makes only the first call run the
body; `oerr` is a fresh local on every call, so a latched second call
returns `nil`.  The body takes the simple path when no chunk was ever
handed off, otherwise sends any final partial chunk and finishes the
large file. -/
def close (env : Env) (hash : List Nat → String) (s : WriterState) :
    WriterState × Option String :=
  if s.doneOnce then (s, none)
  else if s.cidx = 0 then simpleWriteFile env hash { s with doneOnce := true }
  else if 0 < s.cbuf.length then
    match sendChunk env hash { s with doneOnce := true } with
    | (s1, some e) => (s1, some e)
    | (s1, none) => finishLargeFileCall env s1
  else finishLargeFileCall env { s with doneOnce := true }

/-- `Object.NewWriter` (b2/b2.go): fresh hasher, empty chunk buffer,
`w := io.MultiWriter(chsh, cbuf)`, all counters zero.  `csize` is the
chunk-size field (`0` selects the `1e8` default; the integration tests
set it directly, e.g. `f.csize = csize` in b2/buffer.go). -/
def newWriter (csize : Nat) : WriterState :=
  { csize := csize, cbuf := [], cidx := 0, chsh := [],
    started := false, doneOnce := false, err := none, events := [] }

/-- A sequence of `Write` calls: each call feeds one byte slice and the
returned state feeds the next call (counts and returned errors are
delivered to the caller; the state already reflects them through the
error latch). -/
def writeAll (env : Env) (hash : List Nat → String) (s : WriterState)
    (ps : List (List Nat)) : WriterState :=
  ps.foldl (fun s p => (write env hash s p).1) s

/-- Total number of bytes in a sequence of `Write` calls. -/
def totalLen (ps : List (List Nat)) : Nat :=
  (ps.map List.length).sum

/-- The chunks handed to the upload workers, in hand-off order. -/
def handoffs (evs : List Event) : List Chunk :=
  evs.filterMap fun ev =>
    match ev with
    | .handoff c => some c
    | _ => none

/-- Number of `b2_start_large_file` RPCs in a trace. -/
def countStart (evs : List Event) : Nat :=
  evs.countP fun ev => match ev with | .startLargeFile => true | _ => false

/-- Number of `b2_finish_large_file` RPCs in a trace. -/
def countFinish (evs : List Event) : Nat :=
  evs.countP fun ev => match ev with | .finishLargeFile => true | _ => false

/-- Number of simple `b2_upload_file` RPCs in a trace. -/
def countUploadFile (evs : List Event) : Nat :=
  evs.countP fun ev => match ev with | .uploadFile _ _ => true | _ => false

/-- Digest consistency of one recorded RPC: a handed-off chunk carries
the digest of exactly its buffered bytes and its own length; a simple
upload carries the digest of exactly the uploaded bytes. -/
def evOK (hash : List Nat → String) : Event → Prop
  | .handoff c => c.sha1 = hash c.buf ∧ c.size = c.buf.length
  | .uploadFile d sh => sh = hash d
  | _ => True

/-- Digest-buffer consistency: the bytes absorbed by the running hasher
are exactly the bytes in the chunk buffer (they sit behind one
`io.MultiWriter`), and every RPC issued so far was digest-consistent. -/
structure DigestInv (hash : List Nat → String) (s : WriterState) : Prop where
  hsh_buf : s.chsh = s.cbuf
  evs_ok : ∀ ev ∈ s.events, evOK hash ev

/-- An environment whose first `uploadFile` attempt fails with a
reupload-class error after the transport drained one byte of the
request body, whose upload-URL refresh succeeds, and whose second
attempt succeeds. -/
def drainEnv : Env :=
  { startLargeFile := none
    finishLargeFile := none
    getUploadURL := fun _ => none
    uploadFile := fun n => if n = 0 then some "broken pipe" else none
    consumed := fun _ => 1
    reupload := fun _ => true
    redoFuel := 1 }

/-- A concrete stand-in for the SHA-1 hex digest that already
distinguishes the two byte lists the failing run compares (the full
buffer and its drained remainder) — as the collision-resistant SHA-1
does. -/
def lenHash (l : List Nat) : String :=
  toString l.length

/-- A concrete Writer state whose first-error latch holds `"boom"`. -/
def latchedState : WriterState :=
  { csize := 0, cbuf := [], cidx := 0, chsh := [], started := false,
    doneOnce := false, err := some "boom", events := [] }

/-- The state invariant maintained by any sequence of `Write` calls on
a fresh Writer while `startLargeFile` succeeds: the buffer is strictly
below the chunk size, the `once` latch has fired exactly when a chunk
has been handed off, the trace holds one `startLargeFile` RPC per
fired latch and no finish/simple-upload RPCs, and the handed-off
chunk ids are exactly `1, …, cidx` in order. -/
structure Inv (E : Nat) (s : WriterState) : Prop where
  csize_eq : s.csize = E
  err_none : s.err = none
  done_false : s.doneOnce = false
  buf_lt : s.cbuf.length < E
  started_iff : s.started = true ↔ 0 < s.cidx
  start_count : countStart s.events = if 0 < s.cidx then 1 else 0
  finish_count : countFinish s.events = 0
  upload_count : countUploadFile s.events = 0
  handoff_ids : (handoffs s.events).map Chunk.id = List.range' 1 s.cidx

/-- Total number of bytes fed into the Writer so far (buffered plus
already cut into chunks). -/
def totalOf (s : WriterState) : Nat :=
  s.cbuf.length + s.csize * s.cidx

/-! #### Branchwise equations for `write` -/

/-- `Write` with a latched error returns `(0, err)` at once. -/
theorem write_latched (env : Env) (hash : List Nat → String) (s : WriterState)
    (p : List Nat) (e : String) (h : s.err = some e) :
    write env hash s p = (s, 0, some e) := by
  rw [write]
  simp [getErr, h]

/-- `Write` of a slice strictly smaller than the room left in the chunk
buffer only feeds the MultiWriter. -/
theorem write_fits (env : Env) (hash : List Nat → String) (s : WriterState)
    (p : List Nat) (h : s.err = none) (hfit : p.length < csz s - s.cbuf.length) :
    write env hash s p = (wAppend (setCsize s) p, p.length, none) := by
  rw [write]
  simp [getErr, h, if_pos hfit]

/-- `Write` of a slice that fills the chunk buffer, when `sendChunk`
fails: the error is latched and returned with the byte count `i`. -/
theorem write_cut_fail (env : Env) (hash : List Nat → String) (s : WriterState)
    (p : List Nat) (s2 : WriterState) (e : String) (h : s.err = none)
    (hfit : ¬p.length < csz s - s.cbuf.length)
    (hsc : sendChunk env hash (wAppend (setCsize s) (p.take (csz s - s.cbuf.length))) =
      (s2, some e)) :
    write env hash s p = (setErr s2 e, csz s - s.cbuf.length, some e) := by
  rw [write]
  simp only [getErr, h, if_neg hfit]
  split
  next s2b eb heq =>
    rw [hsc] at heq
    cases heq
    rfl
  next s2b heq =>
    rw [hsc] at heq
    cases heq

/-- `Write` of a slice that fills the chunk buffer, when `sendChunk`
succeeds: fill to exactly `csize` bytes, hand the chunk off, recurse
on the remainder. -/
theorem write_cut_ok (env : Env) (hash : List Nat → String) (s : WriterState)
    (p : List Nat) (s2 : WriterState) (h : s.err = none)
    (hfit : ¬p.length < csz s - s.cbuf.length)
    (hsc : sendChunk env hash (wAppend (setCsize s) (p.take (csz s - s.cbuf.length))) =
      (s2, none)) :
    write env hash s p =
      match write env hash s2 (p.drop (csz s - s.cbuf.length)) with
      | (s3, k, some e) => (setErr s3 e, (csz s - s.cbuf.length) + k, some e)
      | (s3, k, none) => (s3, (csz s - s.cbuf.length) + k, none) := by
  rw [write]
  simp only [getErr, h, if_neg hfit]
  split
  next s2b eb heq =>
    rw [hsc] at heq
    cases heq
  next s2b heq =>
    rw [hsc] at heq
    cases heq
    rfl

/-! #### The happy-path counting invariant -/

theorem newWriter_inv (E : Nat) (hE : 1 ≤ E) : Inv E (newWriter E) := by
  constructor <;>
    simp [newWriter, countStart, countFinish, countUploadFile, handoffs, hE] <;>
    omega

theorem totalOf_newWriter (E : Nat) : totalOf (newWriter E) = 0 := by
  simp [totalOf, newWriter]

theorem csz_of_inv {E : Nat} {s : WriterState} (hE : 1 ≤ E) (h : Inv E s) :
    csz s = E := by
  rw [csz, h.csize_eq, if_neg (by omega)]

theorem countStart_append (evs : List Event) (ev : Event) :
    countStart (evs ++ [ev]) =
      countStart evs + (match ev with | .startLargeFile => 1 | _ => 0) := by
  rw [countStart, List.countP_append, List.countP_singleton]
  cases ev <;> simp [countStart]

theorem countFinish_append (evs : List Event) (ev : Event) :
    countFinish (evs ++ [ev]) =
      countFinish evs + (match ev with | .finishLargeFile => 1 | _ => 0) := by
  rw [countFinish, List.countP_append, List.countP_singleton]
  cases ev <;> simp [countFinish]

theorem countUploadFile_append (evs : List Event) (ev : Event) :
    countUploadFile (evs ++ [ev]) =
      countUploadFile evs + (match ev with | .uploadFile _ _ => 1 | _ => 0) := by
  rw [countUploadFile, List.countP_append, List.countP_singleton]
  cases ev <;> simp [countUploadFile]

theorem handoffs_append (evs : List Event) (ev : Event) :
    handoffs (evs ++ [ev]) =
      handoffs evs ++ (match ev with | .handoff c => [c] | _ => []) := by
  rw [handoffs, List.filterMap_append]
  cases ev <;> rfl

/-- One hand-off step: a state whose buffer holds exactly `E` bytes,
whose `once` latch has fired and whose trace holds one `startLargeFile`
and handed-off ids `1, …, cidx`, hands off chunk `cidx + 1` and
re-establishes the invariant. -/
theorem handOff_step (hash : List Nat → String) (E : Nat) (t : WriterState)
    (hE : 1 ≤ E) (hcs : t.csize = E) (he : t.err = none) (hd : t.doneOnce = false)
    (hlen : t.cbuf.length = E) (hst : t.started = true)
    (hstc : countStart t.events = 1)
    (hfc : countFinish t.events = 0) (huc : countUploadFile t.events = 0)
    (hids : (handoffs t.events).map Chunk.id = List.range' 1 t.cidx) :
    Inv E (handOff hash t) ∧ totalOf (handOff hash t) = E * (t.cidx + 1) := by
  constructor
  · constructor
    · simpa [handOff] using hcs
    · simpa [handOff] using he
    · simpa [handOff] using hd
    · simp [handOff]; omega
    · simp [handOff, hst]
    · simp only [handOff]
      rw [countStart_append]
      simp [hstc]
    · simp only [handOff]
      rw [countFinish_append]
      simp [hfc]
    · simp only [handOff]
      rw [countUploadFile_append]
      simp [huc]
    · simp only [handOff]
      rw [handoffs_append, List.map_append, hids]
      simp [List.range'_concat, cutChunk]
      omega
  · simp [handOff, totalOf, hcs]

/-- Filling the buffer to exactly the chunk size and handing the chunk
off preserves the invariant, adds the outstanding bytes to the total,
and produces no error while `startLargeFile` succeeds. -/
theorem cut_inv (env : Env) (hash : List Nat → String) (E : Nat)
    (henv : env.startLargeFile = none) (hE : 1 ≤ E) (s : WriterState)
    (h : Inv E s) (q : List Nat) (hq : q.length = E - s.cbuf.length) :
    (sendChunk env hash (wAppend (setCsize s) q)).2 = none ∧
    Inv E (sendChunk env hash (wAppend (setCsize s) q)).1 ∧
    totalOf (sendChunk env hash (wAppend (setCsize s) q)).1 =
      totalOf s + (E - s.cbuf.length) := by
  have hcz : csz s = E := csz_of_inv hE h
  have hblt := h.buf_lt
  have hs1len : (wAppend (setCsize s) q).cbuf.length = E := by
    simp [wAppend, setCsize, hq, hcz]
    omega
  have hs1cs : (wAppend (setCsize s) q).csize = E := by
    simp [wAppend, setCsize, hcz]
  have hs1ev : (wAppend (setCsize s) q).events = s.events := rfl
  have hs1idx : (wAppend (setCsize s) q).cidx = s.cidx := rfl
  by_cases hst : s.started = true
  · have h1 : 0 < s.cidx := h.started_iff.mp hst
    have hsc : sendChunk env hash (wAppend (setCsize s) q) =
        (handOff hash (wAppend (setCsize s) q), none) := by
      rw [sendChunk, if_pos]
      exact hst
    rw [hsc]
    have hstep := handOff_step hash E (wAppend (setCsize s) q) hE hs1cs
      (by simpa [wAppend, setCsize] using h.err_none)
      (by simpa [wAppend, setCsize] using h.done_false)
      hs1len hst
      (by rw [hs1ev, h.start_count, if_pos h1])
      (by rw [hs1ev, h.finish_count])
      (by rw [hs1ev, h.upload_count])
      (by rw [hs1ev, hs1idx, h.handoff_ids])
    refine ⟨rfl, hstep.1, ?_⟩
    rw [hstep.2, hs1idx, totalOf, h.csize_eq, Nat.mul_succ]
    omega
  · have h0 : s.cidx = 0 := by
      rcases Nat.eq_zero_or_pos s.cidx with h0 | h0
      · exact h0
      · exact absurd (h.started_iff.mpr h0) hst
    have hsc : sendChunk env hash (wAppend (setCsize s) q) =
        (handOff hash
          (appendEv { wAppend (setCsize s) q with started := true } Event.startLargeFile),
         none) := by
      rw [sendChunk, if_neg, henv]
      exact hst
    rw [hsc]
    have htev : (appendEv { wAppend (setCsize s) q with started := true }
        Event.startLargeFile).events = s.events ++ [Event.startLargeFile] := rfl
    have hstep := handOff_step hash E
      (appendEv { wAppend (setCsize s) q with started := true } Event.startLargeFile) hE
      (by simpa [appendEv] using hs1cs)
      (by simpa [appendEv, wAppend, setCsize] using h.err_none)
      (by simpa [appendEv, wAppend, setCsize] using h.done_false)
      (by simpa [appendEv] using hs1len)
      (by simp [appendEv])
      (by rw [htev, countStart_append, h.start_count, if_neg (by omega)]
          simp)
      (by rw [htev, countFinish_append, h.finish_count]
          simp)
      (by rw [htev, countUploadFile_append, h.upload_count]
          simp)
      (by rw [htev, handoffs_append]
          simp only [List.append_nil]
          rw [h.handoff_ids]
          rfl)
    refine ⟨rfl, hstep.1, ?_⟩
    rw [hstep.2]
    have : (appendEv { wAppend (setCsize s) q with started := true }
        Event.startLargeFile).cidx = s.cidx := rfl
    rw [this, totalOf, h.csize_eq, Nat.mul_succ]
    omega

/-- `sendChunk` never fails once `startLargeFile` is bound to succeed. -/
theorem sendChunk_ok (env : Env) (hash : List Nat → String) (s : WriterState)
    (henv : env.startLargeFile = none) :
    (sendChunk env hash s).2 = none := by
  rw [sendChunk]
  split
  · rfl
  · rw [henv]

/-- Any sequence of `Write` calls on an invariant state succeeds, keeps
the invariant and adds exactly the written bytes to the running
total. -/
theorem write_inv (env : Env) (hash : List Nat → String) (E : Nat)
    (henv : env.startLargeFile = none) (hE : 1 ≤ E) :
    ∀ (s : WriterState) (p : List Nat), Inv E s →
      Inv E (write env hash s p).1 ∧
      totalOf (write env hash s p).1 = totalOf s + p.length ∧
      (write env hash s p).2 = (p.length, none) := by
  intro s p
  induction s, p using write.induct env hash with
  | case1 s p e herr =>
    intro h
    rw [getErr] at herr
    rw [h.err_none] at herr
    cases herr
  | case2 s p herr hfit =>
    intro h
    rw [getErr] at herr
    rw [write_fits env hash s p herr hfit]
    have hcz : csz s = E := csz_of_inv hE ⟨h.csize_eq, h.err_none, h.done_false, h.buf_lt,
      h.started_iff, h.start_count, h.finish_count, h.upload_count, h.handoff_ids⟩
    refine ⟨?_, ?_, rfl⟩
    · constructor
      · simp [wAppend, setCsize, hcz]
      · simpa [wAppend, setCsize] using h.err_none
      · simpa [wAppend, setCsize] using h.done_false
      · rw [hcz] at hfit
        simp [wAppend, setCsize]
        omega
      · simpa [wAppend, setCsize] using h.started_iff
      · simpa [wAppend, setCsize] using h.start_count
      · simpa [wAppend, setCsize] using h.finish_count
      · simpa [wAppend, setCsize] using h.upload_count
      · simpa [wAppend, setCsize] using h.handoff_ids
    · simp [wAppend, setCsize, totalOf, hcz, h.csize_eq]
      omega
  | case3 s p herr hfit s2 e hsc =>
    intro h
    have := cut_inv env hash E henv hE s h (p.take (csz s - s.cbuf.length))
      (by rw [List.length_take]; rw [csz_of_inv hE h] at hfit ⊢; omega)
    rw [hsc] at this
    cases this.1
  | case4 s p herr hfit s2 hsc s3 k e hwr ih =>
    intro h
    have hcut := cut_inv env hash E henv hE s h (p.take (csz s - s.cbuf.length))
      (by rw [List.length_take]; rw [csz_of_inv hE h] at hfit ⊢; omega)
    rw [hsc] at hcut
    have := (ih hcut.2.1).2.2
    rw [hwr] at this
    cases this
  | case5 s p herr hfit s2 hsc s3 k hwr ih =>
    intro h
    have hcut := cut_inv env hash E henv hE s h (p.take (csz s - s.cbuf.length))
      (by rw [List.length_take]; rw [csz_of_inv hE h] at hfit ⊢; omega)
    rw [hsc] at hcut
    have hrec := ih hcut.2.1
    rw [hwr] at hrec
    have hk : k = (p.drop (csz s - s.cbuf.length)).length := by
      have h2 := hrec.2.2
      simpa using h2
    rw [write_cut_ok env hash s p s2 h.err_none hfit hsc, hwr]
    refine ⟨hrec.1, ?_, ?_⟩
    · show totalOf s3 = totalOf s + p.length
      have hlen : (p.drop (csz s - s.cbuf.length)).length =
          p.length - (csz s - s.cbuf.length) := List.length_drop _ _
      rw [hrec.2.1, hcut.2.2, hlen]
      rw [csz_of_inv hE h] at hfit ⊢
      have hlt := h.buf_lt
      omega
    · show ((csz s - s.cbuf.length) + k, (none : Option String)) = (p.length, none)
      have hlen : (p.drop (csz s - s.cbuf.length)).length =
          p.length - (csz s - s.cbuf.length) := List.length_drop _ _
      rw [hk, hlen]
      simp only [Prod.mk.injEq, and_true]
      rw [csz_of_inv hE h] at hfit ⊢
      omega

/-- `writeAll` over any call sequence from an invariant state. -/
theorem writeAll_inv (env : Env) (hash : List Nat → String) (E : Nat)
    (henv : env.startLargeFile = none) (hE : 1 ≤ E) :
    ∀ (ps : List (List Nat)) (s : WriterState), Inv E s →
      Inv E (writeAll env hash s ps) ∧
      totalOf (writeAll env hash s ps) = totalOf s + totalLen ps := by
  intro ps
  induction ps with
  | nil => intro s h; simpa [writeAll, totalLen] using h
  | cons p ps ih =>
    intro s h
    have h1 := write_inv env hash E henv hE s p h
    have h2 := ih (write env hash s p).1 h1.1
    have hstep : writeAll env hash s (p :: ps) =
        writeAll env hash (write env hash s p).1 ps := by
      simp [writeAll]
    constructor
    · rw [hstep]
      exact h2.1
    · rw [hstep, h2.2, h1.2.1]
      simp only [totalLen, List.map_cons, List.sum_cons]
      omega

/-- `Close` on a Writer that never handed off a chunk takes the simple
path: one `getUploadURL` and one `uploadFile` of the pending buffer,
tagged with the digest of exactly the absorbed bytes (the successful
upload drains the buffer). -/
theorem close_simple (env : Env) (hash : List Nat → String) (s : WriterState)
    (hdone : s.doneOnce = false) (hcidx : s.cidx = 0)
    (hg : env.getUploadURL 0 = none) (hu : env.uploadFile 0 = none) :
    close env hash s =
      ({ appendEv (appendEv { s with doneOnce := true } Event.getUploadURL)
          (Event.uploadFile s.cbuf (hash s.chsh)) with cbuf := [] }, none) := by
  rw [close, if_neg (by rw [hdone]; simp), if_pos hcidx]
  simp only [simpleWriteFile, hg]
  rw [uploadFileLoop]
  simp only [hu]
  rfl

/-- `Close` on a Writer that has handed off chunks: cut the final
partial chunk (when the buffer is nonempty) and finish the large file;
no simple-upload RPC is ever issued. -/
theorem close_multipart (env : Env) (hash : List Nat → String) (E : Nat)
    (s : WriterState) (hE : 1 ≤ E) (hfin : env.finishLargeFile = none)
    (h : Inv E s) (hcidx : 0 < s.cidx) :
    (close env hash s).2 = none ∧
    countStart (close env hash s).1.events = 1 ∧
    countFinish (close env hash s).1.events = 1 ∧
    countUploadFile (close env hash s).1.events = 0 ∧
    (handoffs (close env hash s).1.events).map Chunk.id =
      List.range' 1 (s.cidx + (if 0 < s.cbuf.length then 1 else 0)) := by
  have hst : ({ s with doneOnce := true } : WriterState).started = true :=
    h.started_iff.mpr hcidx
  rw [close, if_neg (by rw [h.done_false]; simp), if_neg (by omega)]
  by_cases hbuf : 0 < s.cbuf.length
  · rw [if_pos hbuf]
    have hsc : sendChunk env hash { s with doneOnce := true } =
        (handOff hash { s with doneOnce := true }, none) := by
      rw [sendChunk, if_pos hst]
    rw [hsc]
    simp only [finishLargeFileCall, appendEv, handOff, hfin]
    refine ⟨trivial, ?_, ?_, ?_, ?_⟩
    · rw [countStart_append, countStart_append, h.start_count, if_pos hcidx]
      simp
    · rw [countFinish_append, countFinish_append, h.finish_count]
      simp
    · rw [countUploadFile_append, countUploadFile_append, h.upload_count]
      simp
    · rw [handoffs_append, handoffs_append, List.append_nil, List.map_append,
        h.handoff_ids, if_pos hbuf]
      simp [List.range'_concat, cutChunk]
      omega
  · rw [if_neg hbuf]
    simp only [finishLargeFileCall, appendEv, hfin]
    refine ⟨trivial, ?_, ?_, ?_, ?_⟩
    · rw [countStart_append, h.start_count, if_pos hcidx]
      simp
    · rw [countFinish_append, h.finish_count]
      simp
    · rw [countUploadFile_append, h.upload_count]
      simp
    · rw [handoffs_append, List.append_nil, h.handoff_ids, if_neg hbuf]
      simp

/-- Ceiling division characterised against the writer totals: a total
of `r + E * q` bytes with a partial remainder `r < E` needs
`q + (1 if r > 0)` chunks, which is `⌈total / E⌉`. -/
theorem ceil_div_char (E q r : Nat) (hE : 1 ≤ E) (hr : r < E) :
    (r + E * q + E - 1) / E = q + (if 0 < r then 1 else 0) := by
  have hstep : E * (q + 1) = E * q + E := Nat.mul_succ E q
  by_cases h0 : 0 < r
  · rw [if_pos h0]
    have heq : r + E * q + E - 1 = (r - 1) + E * (q + 1) := by omega
    rw [heq, Nat.add_mul_div_left _ _ (by omega : 0 < E),
      Nat.div_eq_of_lt (by omega)]
    omega
  · rw [if_neg h0]
    have heq : r + E * q + E - 1 = (E - 1) + E * q := by omega
    rw [heq, Nat.add_mul_div_left _ _ (by omega : 0 < E),
      Nat.div_eq_of_lt (by omega)]
    omega

/-- C1: For every input byte sequence `B` with `|B| > ChunkSize`
written through a Writer as any number of `Write` calls followed by
`Close` (with every RPC succeeding), the Writer hands off exactly
`⌈|B| / ChunkSize⌉` chunks to the upload workers (each uploaded via
`uploadPart`), calls `startLargeFile` exactly once and
`finishLargeFile` exactly once, and the chunk ids are exactly
`1, …, ⌈|B| / ChunkSize⌉` in order (in particular a set with no
duplicates): `sendChunk` assigns id `cidx + 1` and increments `cidx`
single-threadedly. -/
theorem claim1_multipart_protocol (hash : List Nat → String) (E : Nat)
    (ps : List (List Nat)) (hE : 1 ≤ E) (hgt : E < totalLen ps) :
    (close happyEnv hash (writeAll happyEnv hash (newWriter E) ps)).2 = none ∧
    countStart (close happyEnv hash (writeAll happyEnv hash (newWriter E) ps)).1.events = 1 ∧
    countFinish (close happyEnv hash (writeAll happyEnv hash (newWriter E) ps)).1.events = 1 ∧
    (handoffs (close happyEnv hash (writeAll happyEnv hash (newWriter E) ps)).1.events).length =
      (totalLen ps + E - 1) / E ∧
    (handoffs (close happyEnv hash (writeAll happyEnv hash (newWriter E) ps)).1.events).map
        Chunk.id =
      List.range' 1 ((totalLen ps + E - 1) / E) := by
  have hinv := writeAll_inv happyEnv hash E rfl hE ps (newWriter E) (newWriter_inv E hE)
  have htot : totalOf (writeAll happyEnv hash (newWriter E) ps) = totalLen ps := by
    rw [hinv.2, totalOf_newWriter]
    omega
  have hcs := hinv.1.csize_eq
  have hblt := hinv.1.buf_lt
  have htot2 : (writeAll happyEnv hash (newWriter E) ps).cbuf.length +
      E * (writeAll happyEnv hash (newWriter E) ps).cidx = totalLen ps := by
    rw [← htot, totalOf, hcs]
  have hcidx : 0 < (writeAll happyEnv hash (newWriter E) ps).cidx := by
    by_contra h0
    have hz : (writeAll happyEnv hash (newWriter E) ps).cidx = 0 := by omega
    rw [hz, Nat.mul_zero] at htot2
    omega
  have hclose := close_multipart happyEnv hash E (writeAll happyEnv hash (newWriter E) ps)
    hE rfl hinv.1 hcidx
  have hceil : (writeAll happyEnv hash (newWriter E) ps).cidx +
      (if 0 < (writeAll happyEnv hash (newWriter E) ps).cbuf.length then 1 else 0) =
      (totalLen ps + E - 1) / E := by
    rw [← htot2, ceil_div_char E _ _ hE hblt]
  refine ⟨hclose.1, hclose.2.1, hclose.2.2.1, ?_, ?_⟩
  · have hlen := congrArg List.length hclose.2.2.2.2
    rw [List.length_map, List.length_range'] at hlen
    rw [hlen, hceil]
  · rw [hclose.2.2.2.2, hceil]

/-- C1 witness: chunk size 2, one `Write` of 3 bytes: two chunks with
ids 1, 2, one start, one finish. -/
theorem claim1_multipart_protocol_witness :
    (1 ≤ 2 ∧ 2 < totalLen [[1, 2, 3]]) ∧
    ((close happyEnv (fun _ => "") (writeAll happyEnv (fun _ => "") (newWriter 2) [[1, 2, 3]])).2 = none ∧
     countStart (close happyEnv (fun _ => "") (writeAll happyEnv (fun _ => "") (newWriter 2) [[1, 2, 3]])).1.events = 1 ∧
     countFinish (close happyEnv (fun _ => "") (writeAll happyEnv (fun _ => "") (newWriter 2) [[1, 2, 3]])).1.events = 1 ∧
     (handoffs (close happyEnv (fun _ => "") (writeAll happyEnv (fun _ => "") (newWriter 2) [[1, 2, 3]])).1.events).length =
       (totalLen [[1, 2, 3]] + 2 - 1) / 2 ∧
     (handoffs (close happyEnv (fun _ => "") (writeAll happyEnv (fun _ => "") (newWriter 2) [[1, 2, 3]])).1.events).map
         Chunk.id =
       List.range' 1 ((totalLen [[1, 2, 3]] + 2 - 1) / 2)) :=
  ⟨⟨by omega, by decide⟩,
   claim1_multipart_protocol (fun _ => "") 2 [[1, 2, 3]] (by omega) (by decide)⟩

/-- C2 (amended): for every input `B` with `|B| < ChunkSize` strictly,
written through a Writer as any number of `Write` calls and then
`Close` (all RPCs succeeding), exactly one simple `uploadFile` RPC is
issued and zero multipart RPCs: no `startLargeFile`, no chunk hand-off
(hence no `uploadPart`), no `finishLargeFile`.  At `|B| = ChunkSize`
exactly this fails: `Write` cuts a chunk as soon as the buffer is
full, so the multipart path is taken (see the counterexample). -/
theorem claim2_small_file_amended (hash : List Nat → String) (E : Nat)
    (ps : List (List Nat)) (hE : 1 ≤ E) (hlt : totalLen ps < E) :
    (close happyEnv hash (writeAll happyEnv hash (newWriter E) ps)).2 = none ∧
    countUploadFile (close happyEnv hash (writeAll happyEnv hash (newWriter E) ps)).1.events = 1 ∧
    countStart (close happyEnv hash (writeAll happyEnv hash (newWriter E) ps)).1.events = 0 ∧
    countFinish (close happyEnv hash (writeAll happyEnv hash (newWriter E) ps)).1.events = 0 ∧
    handoffs (close happyEnv hash (writeAll happyEnv hash (newWriter E) ps)).1.events = [] := by
  have hinv := writeAll_inv happyEnv hash E rfl hE ps (newWriter E) (newWriter_inv E hE)
  have htot : totalOf (writeAll happyEnv hash (newWriter E) ps) = totalLen ps := by
    rw [hinv.2, totalOf_newWriter]
    omega
  have hcs := hinv.1.csize_eq
  have htot2 : (writeAll happyEnv hash (newWriter E) ps).cbuf.length +
      E * (writeAll happyEnv hash (newWriter E) ps).cidx = totalLen ps := by
    rw [← htot, totalOf, hcs]
  have hcidx0 : (writeAll happyEnv hash (newWriter E) ps).cidx = 0 := by
    by_contra h0
    have h1 : 0 < (writeAll happyEnv hash (newWriter E) ps).cidx :=
      Nat.pos_of_ne_zero h0
    have h2 : E ≤ E * (writeAll happyEnv hash (newWriter E) ps).cidx :=
      Nat.le_mul_of_pos_right E h1
    omega
  have hno : handoffs (writeAll happyEnv hash (newWriter E) ps).events = [] := by
    have := hinv.1.handoff_ids
    rw [hcidx0] at this
    simp only [List.range'_zero] at this
    exact List.map_eq_nil.mp this
  have hclose := close_simple happyEnv hash (writeAll happyEnv hash (newWriter E) ps)
    hinv.1.done_false hcidx0 rfl rfl
  rw [hclose]
  refine ⟨rfl, ?_, ?_, ?_, ?_⟩
  · simp only [appendEv]
    rw [countUploadFile_append, countUploadFile_append, hinv.1.upload_count]
    simp
  · simp only [appendEv]
    rw [countStart_append, countStart_append, hinv.1.start_count, hcidx0]
    simp
  · simp only [appendEv]
    rw [countFinish_append, countFinish_append, hinv.1.finish_count]
    simp
  · simp only [appendEv]
    rw [handoffs_append, handoffs_append, hno]
    rfl

/-- C2 witness: chunk size 2, one `Write` of a single byte: one simple
upload, no multipart RPCs. -/
theorem claim2_small_file_amended_witness :
    (1 ≤ 2 ∧ totalLen [[7]] < 2) ∧
    ((close happyEnv (fun _ => "") (writeAll happyEnv (fun _ => "") (newWriter 2) [[7]])).2 = none ∧
     countUploadFile (close happyEnv (fun _ => "") (writeAll happyEnv (fun _ => "") (newWriter 2) [[7]])).1.events = 1 ∧
     countStart (close happyEnv (fun _ => "") (writeAll happyEnv (fun _ => "") (newWriter 2) [[7]])).1.events = 0 ∧
     countFinish (close happyEnv (fun _ => "") (writeAll happyEnv (fun _ => "") (newWriter 2) [[7]])).1.events = 0 ∧
     handoffs (close happyEnv (fun _ => "") (writeAll happyEnv (fun _ => "") (newWriter 2) [[7]])).1.events = []) :=
  ⟨⟨by omega, by decide⟩,
   claim2_small_file_amended (fun _ => "") 2 [[7]] (by omega) (by decide)⟩

/-- C2 counterexample: with chunk size 2 and input `[1, 2]` of length
exactly `ChunkSize`, the Writer issues zero simple `uploadFile` RPCs
and instead takes the multipart path: one `startLargeFile`, one
hand-off (part 1) and one `finishLargeFile` — refuting "for every `B`
with `|B| ≤ ChunkSize` exactly one simple upload-file RPC is issued
and zero multipart RPCs ... in particular when `|B|` equals
`ChunkSize` exactly". -/
theorem claim2_counterexample :
    countUploadFile (close happyEnv (fun _ => "") (writeAll happyEnv (fun _ => "") (newWriter 2) [[1, 2]])).1.events = 0 ∧
    countStart (close happyEnv (fun _ => "") (writeAll happyEnv (fun _ => "") (newWriter 2) [[1, 2]])).1.events = 1 ∧
    countFinish (close happyEnv (fun _ => "") (writeAll happyEnv (fun _ => "") (newWriter 2) [[1, 2]])).1.events = 1 ∧
    (handoffs (close happyEnv (fun _ => "") (writeAll happyEnv (fun _ => "") (newWriter 2) [[1, 2]])).1.events).map
        Chunk.id = [1] := by
  have hE : (1 : Nat) ≤ 2 := by omega
  have hinv := writeAll_inv happyEnv (fun _ => "") 2 rfl hE [[1, 2]] (newWriter 2)
    (newWriter_inv 2 hE)
  have htot : totalOf (writeAll happyEnv (fun _ => "") (newWriter 2) [[1, 2]]) = 2 := by
    rw [hinv.2, totalOf_newWriter]
    decide
  have hcs := hinv.1.csize_eq
  have hblt := hinv.1.buf_lt
  have htot2 : (writeAll happyEnv (fun _ => "") (newWriter 2) [[1, 2]]).cbuf.length +
      2 * (writeAll happyEnv (fun _ => "") (newWriter 2) [[1, 2]]).cidx = 2 := by
    rw [totalOf, hcs] at htot
    exact htot
  have hcidx : 0 < (writeAll happyEnv (fun _ => "") (newWriter 2) [[1, 2]]).cidx := by
    omega
  have hbuf0 : ¬0 < (writeAll happyEnv (fun _ => "") (newWriter 2) [[1, 2]]).cbuf.length := by
    omega
  have hone : (writeAll happyEnv (fun _ => "") (newWriter 2) [[1, 2]]).cidx = 1 := by
    omega
  have hclose := close_multipart happyEnv (fun _ => "") 2
    (writeAll happyEnv (fun _ => "") (newWriter 2) [[1, 2]]) hE rfl hinv.1 hcidx
  refine ⟨hclose.2.2.2.1, hclose.2.1, hclose.2.2.1, ?_⟩
  rw [hclose.2.2.2.2, if_neg hbuf0, hone]
  rfl

/-- The `redo` loop never touches the `done` latch. -/
theorem uploadFileLoop_done (env : Env) (sha : String) :
    ∀ (fuel attempt guu : Nat) (s : WriterState),
      (uploadFileLoop env sha s attempt guu fuel).1.doneOnce = s.doneOnce := by
  intro fuel
  induction fuel with
  | zero =>
    intro attempt guu s
    rw [uploadFileLoop]
    cases env.uploadFile attempt with
    | none => rfl
    | some e =>
      simp only []
      split <;> rfl
  | succ fuel2 ih =>
    intro attempt guu s
    rw [uploadFileLoop]
    cases env.uploadFile attempt with
    | none => rfl
    | some e =>
      simp only []
      split
      · cases henv : env.getUploadURL guu with
        | none => rw [ih]; rfl
        | some e2 => rfl
      · rfl

/-- After any `Close`, the `done` latch is set. -/
theorem close_done (env : Env) (hash : List Nat → String) (s : WriterState) :
    (close env hash s).1.doneOnce = true := by
  rw [close]
  by_cases hd : s.doneOnce = true
  · rw [if_pos hd]
    exact hd
  · rw [if_neg hd]
    by_cases hc : s.cidx = 0
    · rw [if_pos hc, simpleWriteFile]
      cases env.getUploadURL 0 with
      | some e => rfl
      | none =>
        simp only []
        rw [uploadFileLoop_done]
        rfl
    · rw [if_neg hc]
      by_cases hb : 0 < s.cbuf.length
      · rw [if_pos hb]
        have hsc : (sendChunk env hash { s with doneOnce := true }).1.doneOnce = true := by
          rw [sendChunk]
          split
          · rfl
          · cases env.startLargeFile <;> rfl
        rcases hres : sendChunk env hash { s with doneOnce := true } with ⟨s1, r⟩
        rw [hres] at hsc
        cases r with
        | some e => exact hsc
        | none => exact hsc
      · rw [if_neg hb]
        rfl

/-- C3 (amended): a second call to `Close` is a no-op — the `done`
latch skips the body, so no additional RPC is issued and the state is
unchanged — and it returns `nil` (the local `oerr` of the second call),
regardless of what the first `Close` returned.  In particular, when
the first `Close` returned an error, the second call does not
reproduce it (see the counterexample). -/
theorem claim3_close_reentry_amended (env1 env2 : Env)
    (hash1 hash2 : List Nat → String) (s : WriterState) :
    close env2 hash2 (close env1 hash1 s).1 = ((close env1 hash1 s).1, none) := by
  rw [close, if_pos (close_done env1 hash1 s)]

/-- C3 counterexample: with `getUploadURL` failing, the first `Close`
on a fresh Writer returns the error `"boom"`, while the second `Close`
returns `nil` (not the first result) — refuting "calling Close a
second time returns the same value as the first call"; the trace is
unchanged, so the no-additional-RPCs half does hold. -/
theorem claim3_counterexample :
    (close { happyEnv with getUploadURL := fun _ => some "boom" } (fun _ => "")
      (newWriter 0)).2 = some "boom" ∧
    (close { happyEnv with getUploadURL := fun _ => some "boom" } (fun _ => "")
      ((close { happyEnv with getUploadURL := fun _ => some "boom" } (fun _ => "")
        (newWriter 0)).1)).2 = none ∧
    (close { happyEnv with getUploadURL := fun _ => some "boom" } (fun _ => "")
      ((close { happyEnv with getUploadURL := fun _ => some "boom" } (fun _ => "")
        (newWriter 0)).1)).1.events =
      (close { happyEnv with getUploadURL := fun _ => some "boom" } (fun _ => "")
        (newWriter 0)).1.events := by
  refine ⟨rfl, rfl, rfl⟩

/-- C9: the Writer's first-error latch is write-once and sticky:
`setErr` on a latched Writer changes nothing at all, and `Write` on a
latched Writer returns `(0, e)` with the state unchanged — no bytes
are copied into the chunk buffer and no chunk is handed off. -/
theorem claim9_sticky_error_latch (env : Env) (hash : List Nat → String)
    (s : WriterState) (p : List Nat) (e e2 : String) (h : s.err = some e) :
    setErr s e2 = s ∧ write env hash s p = (s, 0, some e) := by
  constructor
  · rw [setErr, h]
  · exact write_latched env hash s p e h

/-- C9 witness: a latched Writer at a concrete state. -/
theorem claim9_sticky_error_latch_witness :
    latchedState.err = some "boom" ∧
    (setErr latchedState "other" = latchedState ∧
     write happyEnv (fun _ => "") latchedState [1, 2] = (latchedState, 0, some "boom")) :=
  ⟨rfl, claim9_sticky_error_latch happyEnv (fun _ => "") latchedState [1, 2] "boom" "other" rfl⟩

/-- C10: digest-buffer consistency fails in the code on a retried
simple upload, and the claim (with the spec) is the intent the code
misses.  Every hand-off and the *first* `uploadFile` attempt carry the
digest of exactly the buffered bytes — `Write` feeds one
`io.MultiWriter` over the hasher and the buffer and `sendChunk` resets
both together — but `simpleWriteFile`'s `redo` loop re-passes the same
already-consumed `bytes.Buffer` with the digest precomputed before the
loop, so the retry uploads the leftover bytes under the full buffer's
digest.  Concretely: chunk size 3, one `Write` of `[1, 2]`, `Close`
under `drainEnv` (first attempt fails reupload-class after draining
one byte, retry succeeds): the run succeeds, its trace contains an
`uploadFile` of `[2]` tagged with the digest of `[1, 2]`, and since
the digest distinguishes the two lists, digest consistency
(`DigestInv`) is violated. -/
theorem claim10_digest_bug :
    (close drainEnv lenHash (writeAll drainEnv lenHash (newWriter 3) [[1, 2]])).2 = none ∧
    Event.uploadFile [2] (lenHash [1, 2]) ∈
      (close drainEnv lenHash (writeAll drainEnv lenHash (newWriter 3) [[1, 2]])).1.events ∧
    lenHash [1, 2] ≠ lenHash [2] ∧
    ¬DigestInv lenHash
      (close drainEnv lenHash (writeAll drainEnv lenHash (newWriter 3) [[1, 2]])).1 := by
  have hw : writeAll drainEnv lenHash (newWriter 3) [[1, 2]] =
      wAppend (setCsize (newWriter 3)) [1, 2] := by
    have := write_fits drainEnv lenHash (newWriter 3) [1, 2] rfl (by decide)
    simp [writeAll, this]
  rw [hw]
  refine ⟨rfl, by decide, by decide, ?_⟩
  intro hD
  have hmem : Event.uploadFile [2] (lenHash [1, 2]) ∈
      (close drainEnv lenHash (wAppend (setCsize (newWriter 3)) [1, 2])).1.events := by
    decide
  have := hD.evs_ok (Event.uploadFile [2] (lenHash [1, 2])) hmem
  rw [show evOK lenHash (Event.uploadFile [2] (lenHash [1, 2])) =
      (lenHash [1, 2] = lenHash [2]) from rfl] at this
  exact absurd this (by decide)

end Writer

/-! ### Claims about the classifier, the reauth wrapper and the backoff
schedule -/

/-- C4: under the reauth loop, if the first attempt of the wrapped RPC
classifies as `ReAuthenticate`, then exactly one `authorizeAccount`
invocation is made and the RPC is retried exactly once at this level:
when reauthorization succeeds the loop returns the second attempt's
result unconditionally (in particular without a further retry even if
that result again classifies as `ReAuthenticate` — the outcome depends
only on attempts 0 and 1); when reauthorization fails, its error is
returned and the RPC is not retried. -/
theorem claim4_reauth_exactly_once (f : Nat → Option GoError)
    (reauthorizeResult : Option GoError) (h : b2RootReauth (f 0) = true) :
    (withReauth reauthorizeResult f).2.2 = 1 ∧
    (reauthorizeResult = none → withReauth reauthorizeResult f = (f 1, 2, 1)) ∧
    (∀ re, reauthorizeResult = some re →
      withReauth reauthorizeResult f = (some re, 1, 1)) ∧
    (∀ g : Nat → Option GoError, g 0 = f 0 → g 1 = f 1 →
      withReauth reauthorizeResult g = withReauth reauthorizeResult f) := by
  refine ⟨?_, ?_, ?_, ?_⟩
  · rw [withReauth.eq_def]
    simp only [h, if_true]
    cases reauthorizeResult <;> rfl
  · intro hr
    rw [withReauth.eq_def]
    simp only [h, if_true, hr]
  · intro re hr
    rw [withReauth.eq_def]
    simp only [h, if_true, hr]
  · intro g h0 h1
    rw [withReauth.eq_def, withReauth.eq_def]
    simp only [h0, h1, h, if_true]

/-- C4 witness: a 401 on `b2_list_buckets` classified `ReAuthenticate`,
with a succeeding reauthorization. -/
theorem claim4_reauth_exactly_once_witness :
    b2RootReauth ((fun _ : Nat => some (GoError.b2 err401list)) 0) = true ∧
    (withReauth none (fun _ : Nat => some (GoError.b2 err401list))).2.2 = 1 :=
  ⟨by decide,
   (claim4_reauth_exactly_once (fun _ => some (GoError.b2 err401list)) none
     (by decide)).1⟩

/-- C5 counterexample: a structured error with `retry_after_seconds = 0`
and code 408 classifies as `Punt`, not `Retry` — the classifier has no
408 case — refuting "for every structured RPC error whose
retry_after_seconds field is 0 and whose HTTP code is 408, the action
classifier returns Retry". -/
theorem claim5_counterexample :
    Action (GoError.b2 err408info) = ErrAction.punt ∧
    Action (GoError.b2 err408info) ≠ ErrAction.retry := by
  constructor <;> decide

/-- C5 (amended): with `retry_after_seconds = 0`, code 408 classifies
as `Punt` for any method (the switch in `Action` has no 408 case),
while codes 429, 500 and 503 classify as `Retry` whenever the earlier
rules do not apply — expressed exactly: the 5xx-on-upload rule does
not fire (which is automatic for 429, and for 500/503 means the method
is not an upload method); the retry-after rule is off by hypothesis
and the 401 rule cannot apply to these codes. -/
theorem claim5_retry_code_set_amended (e : B2Err) (hr : e.retry = 0) :
    (e.code = 408 → Action (GoError.b2 e) = ErrAction.punt) ∧
    ((e.code = 429 ∨ e.code = 500 ∨ e.code = 503) →
      ¬(500 ≤ e.code ∧ e.code < 600 ∧ isUploadMethod e.method) →
      Action (GoError.b2 e) = ErrAction.retry) := by
  constructor
  · intro hc
    rw [Action]
    simp [hr, hc]
  · intro hc hno
    rw [Action]
    rcases hc with hc | hc | hc
    · simp [hr, hc]
    · rw [hc] at hno
      have hup : ¬isUploadMethod e.method = true := fun hm =>
        hno ⟨by norm_num, by norm_num, hm⟩
      simp [hr, hc, hup]
    · rw [hc] at hno
      have hup : ¬isUploadMethod e.method = true := fun hm =>
        hno ⟨by norm_num, by norm_num, hm⟩
      simp [hr, hc, hup]

/-- C5 witness: code 408 on a non-upload method classifies `Punt`, and
code 429 on an upload method — where no earlier rule applies —
classifies `Retry`. -/
theorem claim5_retry_code_set_amended_witness :
    err408info.retry = 0 ∧ err429upload.retry = 0 ∧
    (err408info.code = 408 → Action (GoError.b2 err408info) = ErrAction.punt) ∧
    ((err429upload.code = 429 ∨ err429upload.code = 500 ∨ err429upload.code = 503) →
      ¬(500 ≤ err429upload.code ∧ err429upload.code < 600 ∧
        isUploadMethod err429upload.method) →
      Action (GoError.b2 err429upload) = ErrAction.retry) :=
  ⟨rfl, rfl, (claim5_retry_code_set_amended err408info rfl).1,
   (claim5_retry_code_set_amended err429upload rfl).2⟩

/-- C6 counterexample: a non-structured error (failed type assertion)
classifies as `Punt`, not `Retry` — refuting "for every error value
that is not a structured RPC error, the action classifier returns
Retry". -/
theorem claim6_counterexample :
    Action (GoError.generic "connection reset by peer") = ErrAction.punt ∧
    Action (GoError.generic "connection reset by peer") ≠ ErrAction.retry := by
  constructor <;> decide

/-- C6 (amended): for every error value that is not the structured
error type, the classifier returns `Punt` (not `Retry`), and the
suggested delay is 0.  (Transport failures seen by callers are in fact
wrapped into structured errors with `retry = 1` by `makeRequest`, so
they never reach the classifier unstructured.) -/
theorem claim6_unstructured_amended (msg : String) :
    Action (GoError.generic msg) = ErrAction.punt ∧
    Backoff (GoError.generic msg) = 0 :=
  ⟨rfl, rfl⟩

/-- C7: a structured error carrying `retry_after_seconds = n > 0`
classifies as `Retry` regardless of its HTTP code and method — the
`e.retry > 0` test precedes the 5xx, 401 and code-set rules — and the
suggested delay is exactly `n` seconds (`n * 10^9` nanoseconds). -/
theorem claim7_retry_after_precedence (e : B2Err) (h : 0 < e.retry) :
    Action (GoError.b2 e) = ErrAction.retry ∧
    Backoff (GoError.b2 e) = e.retry * 1000000000 := by
  constructor
  · rw [Action]
    simp [h]
  · rfl

/-- C7 witness: `retry_after_seconds = 7` on a 503 upload error. -/
theorem claim7_retry_after_precedence_witness :
    (0 : Int) < err503upload.retry ∧
    (Action (GoError.b2 err503upload) = ErrAction.retry ∧
     Backoff (GoError.b2 err503upload) = err503upload.retry * 1000000000) :=
  ⟨by decide, claim7_retry_after_precedence err503upload (by decide)⟩

/-- `getBackoff` in closed form: the stepped base scaled by
`(101 + 2u) / 100`, i.e. the jitter adds between +1% (at `u = 0`) and
+3% (exclusive, as `u → 1`) of the base. -/
theorem getBackoffQ_eq (d u : ℚ) :
    getBackoffQ d u = stepQ d * ((101 + 2 * u) / 100) := by
  rw [getBackoffQ, stepQ]
  split <;> (rw [jitterQ]; ring)

/-- The local backoff sequence stays positive for draws in `[0, 1)`. -/
theorem backoffSeq_pos (u : Nat → ℚ) (hu : ∀ n, 0 ≤ u n ∧ u n < 1) :
    ∀ k, 0 < backoffSeq u k := by
  intro k
  induction k with
  | zero => norm_num [backoffSeq]
  | succ k ih =>
    rw [backoffSeq, getBackoffQ_eq]
    have hs : 0 < stepQ (backoffSeq u k) := by
      rw [stepQ]
      split <;> linarith
    have h2 : 0 < (101 + 2 * u k) / 100 := by
      have := (hu k).1
      positivity
    positivity

/-- C8 counterexample: the claim "each wait carries uniform jitter
within ±1% of the current value" fails: at the very first step
(500 ms, doubled base 1 s) with draw `u = 9/10` the wait is 1.028 s,
which is 2.8% above the base, outside the ±1% band.  The jitter term
`(d/50)·(u + 1/2)` lies in [+1%, +3%) of the base, not within ±1%. -/
theorem claim8_counterexample :
    ¬(∀ d du : ℚ, 0 < d → 0 ≤ du → du < 1 →
        |getBackoffQ d du - stepQ d| ≤ stepQ d / 100) := by
  intro h
  have h1 := h 500000000 (9 / 10) (by norm_num) (by norm_num) (by norm_num)
  rw [getBackoffQ_eq] at h1
  have hs : stepQ 500000000 = 1000000000 := by
    rw [stepQ, secondNs]
    norm_num
  rw [hs] at h1
  norm_num [abs_le] at h1

/-- C8 (amended): in the backoff loop, when no server-supplied delay is
available, the local value begins at 500 ms; each step takes the base
`b` (the previous value doubled while it is at most 15 s, held above
15 s) and waits `b · (101 + 2u) / 100` for the uniform draw
`u ∈ [0, 1)`: uniformly distributed over `[1.01·b, 1.03·b)`, i.e. a
jitter of +2% ± 1% of the base, not ±1%. -/
theorem claim8_backoff_amended (u : Nat → ℚ) (hu : ∀ n, 0 ≤ u n ∧ u n < 1)
    (k : Nat) :
    backoffSeq u 0 = 500000000 ∧
    backoffSeq u (k + 1) = stepQ (backoffSeq u k) * ((101 + 2 * u k) / 100) ∧
    stepQ (backoffSeq u k) * (101 / 100) ≤ backoffSeq u (k + 1) ∧
    backoffSeq u (k + 1) < stepQ (backoffSeq u k) * (103 / 100) := by
  have hpos := backoffSeq_pos u hu k
  have hs : 0 < stepQ (backoffSeq u k) := by
    rw [stepQ]
    split <;> linarith
  have heq : backoffSeq u (k + 1) =
      stepQ (backoffSeq u k) * ((101 + 2 * u k) / 100) := by
    rw [backoffSeq, getBackoffQ_eq]
  refine ⟨rfl, heq, ?_, ?_⟩
  · rw [heq]
    have h1 : (101 : ℚ) / 100 ≤ (101 + 2 * u k) / 100 := by
      have := (hu k).1
      linarith
    exact mul_le_mul_of_nonneg_left h1 (le_of_lt hs)
  · rw [heq]
    have h1 : (101 + 2 * u k) / 100 < (103 : ℚ) / 100 := by
      have := (hu k).2
      linarith
    exact mul_lt_mul_of_pos_left h1 hs

/-- C8 witness: the constant draw `u = 1/2` at the first step. -/
theorem claim8_backoff_amended_witness :
    (∀ n : Nat, 0 ≤ (fun _ : Nat => (1 : ℚ) / 2) n ∧
      (fun _ : Nat => (1 : ℚ) / 2) n < 1) ∧
    (backoffSeq (fun _ => (1 : ℚ) / 2) 0 = 500000000 ∧
     backoffSeq (fun _ => (1 : ℚ) / 2) 1 =
       stepQ (backoffSeq (fun _ => (1 : ℚ) / 2) 0) *
         ((101 + 2 * (fun _ : Nat => (1 : ℚ) / 2) 0) / 100) ∧
     stepQ (backoffSeq (fun _ => (1 : ℚ) / 2) 0) * (101 / 100) ≤
       backoffSeq (fun _ => (1 : ℚ) / 2) 1 ∧
     backoffSeq (fun _ => (1 : ℚ) / 2) 1 <
       stepQ (backoffSeq (fun _ => (1 : ℚ) / 2) 0) * (103 / 100)) :=
  ⟨fun _ => ⟨by norm_num, by norm_num⟩,
   claim8_backoff_amended (fun _ => (1 : ℚ) / 2)
     (fun _ => ⟨by norm_num, by norm_num⟩) 0⟩

end Blazer
